import Mathlib

set_option maxRecDepth 8000

/-!
Shallow embedding of the go.nut NUT client.

The repository has two variants of the transport layer: nut.go
(ReadResponse / SendCommand / GetVersion / Connect) and a second,
context-aware variant (src/unnamed/part_001).  Both are modelled here;
functions from the second variant carry the suffix 2, functions from
nut.go the suffix 1 when the two differ.  The error catalog
(errorForMessage) lives in src/unnamed/part_001 and is shared.

Modelling conventions:
 - Go strings are Lean Strings; their character content is accessed as
   List Char through String.data.  The Go strings helpers used by the
   sources (HasPrefix, TrimPrefix, TrimSuffix, Split, Count) are
   re-implemented structurally on List Char so that everything reduces
   inside the kernel.
 - The TCP connection is modelled as a finite List Char followed by a
   clean end-of-stream; bufio ReadString reads up to and including the
   first newline, and reports EOF (with the partial data) when the
   stream ends first.
 - Loops carry an explicit fuel parameter; a GoOutcome value separates
   normal returns, runtime panics (out-of-range indexing) and fuel
   exhaustion (used to exhibit divergence).
 - strconv.ParseInt (base 10, 64 bit) is modelled exactly; for
   strconv.ParseFloat the plain decimal forms (optional sign, digits
   with an optional dot, optional decimal exponent, overflow check
   against the largest float64) are modelled, with the parsed value
   kept as the exact rational the decimal denotes; the hexadecimal,
   underscore-separated and Inf/NaN spellings of Go float literals are
   outside the model, as is binary rounding (no claim exercises them).
-/

/-- Go strings.HasPrefix: true when the second list is a prefix of the first. -/
def hasPrefixL : List Char → List Char → Bool
  | _, [] => true
  | [], _ :: _ => false
  | c :: cs, p :: ps => if c = p then hasPrefixL cs ps else false

/-- Go strings.TrimPrefix: removes the prefix when present, else identity. -/
def trimPrefixL (s p : List Char) : List Char :=
  if hasPrefixL s p then s.drop p.length else s

/-- Go strings.HasSuffix, via the reversed lists. -/
def hasSuffixL (s suf : List Char) : Bool :=
  hasPrefixL s.reverse suf.reverse

/-- Go strings.TrimSuffix: removes one copy of the suffix when present. -/
def trimSuffixL (s suf : List Char) : List Char :=
  if hasSuffixL s suf then s.take (s.length - suf.length) else s

/-- Go strings.Split with a one-character separator (the only form the
sources use: quote, space, colon and newline separators). -/
def splitOnChar (sep : Char) : List Char → List (List Char)
  | [] => [[]]
  | c :: rest =>
    match splitOnChar sep rest with
    | [] => [[]]
    | h :: t => if c = sep then [] :: h :: t else (c :: h) :: t

/-- String wrapper for hasPrefixL (Go strings.HasPrefix). -/
def goHasPrefix (s p : String) : Bool := hasPrefixL s.data p.data

/-- String wrapper for trimPrefixL (Go strings.TrimPrefix). -/
def goTrimPrefix (s p : String) : String := String.mk (trimPrefixL s.data p.data)

/-- String wrapper for trimSuffixL (Go strings.TrimSuffix). -/
def goTrimSuffix (s suf : String) : String := String.mk (trimSuffixL s.data suf.data)

/-- String wrapper for splitOnChar (Go strings.Split, one-char separator). -/
def goSplit (s : String) (sep : Char) : List String :=
  (splitOnChar sep s.data).map String.mk

/-- Go strings.Count with a one-character pattern. -/
def goCount (s : String) (c : Char) : Nat := s.data.count c

theorem hasPrefixL_nil (s : List Char) : hasPrefixL s [] = true := by
  cases s <;> rfl

theorem hasPrefixL_append_self (p z : List Char) : hasPrefixL (p ++ z) p = true := by
  induction p with
  | nil => cases z <;> rfl
  | cons c cs ih => simp [hasPrefixL, ih]

theorem hasPrefixL_iff (s p : List Char) :
    hasPrefixL s p = true ↔ ∃ z, s = p ++ z := by
  constructor
  · intro h
    induction p generalizing s with
    | nil => exact ⟨s, rfl⟩
    | cons q qs ih =>
      cases s with
      | nil => simp [hasPrefixL] at h
      | cons c cs =>
        by_cases hc : c = q
        · subst hc
          simp [hasPrefixL] at h
          obtain ⟨z, hz⟩ := ih cs h
          exact ⟨z, by simp [hz]⟩
        · simp [hasPrefixL, hc] at h
  · rintro ⟨z, rfl⟩
    exact hasPrefixL_append_self p z

theorem hasPrefixL_snoc (s p : List Char) (c : Char) (h : c ∉ p) :
    hasPrefixL (s ++ [c]) p = hasPrefixL s p := by
  induction p generalizing s with
  | nil => rw [hasPrefixL_nil, hasPrefixL_nil]
  | cons q qs ih =>
    cases s with
    | nil =>
      have hq : c ≠ q := fun hcq => h (hcq ▸ List.mem_cons_self q qs)
      simp [hasPrefixL, hq]
    | cons x xs =>
      have hqs : c ∉ qs := fun hm => h (List.mem_cons_of_mem q hm)
      simp only [List.cons_append, hasPrefixL]
      by_cases hxq : x = q <;> simp [hxq, ih xs hqs]

theorem splitOnChar_ne_nil (sep : Char) (l : List Char) : splitOnChar sep l ≠ [] := by
  cases l with
  | nil => simp [splitOnChar]
  | cons c rest =>
    simp only [splitOnChar]
    cases he : splitOnChar sep rest with
    | nil => simp
    | cons h0 t =>
      by_cases hc : c = sep <;> simp [hc]

theorem splitOnChar_of_not_mem (sep : Char) (l : List Char) (h : sep ∉ l) :
    splitOnChar sep l = [l] := by
  induction l with
  | nil => rfl
  | cons c rest ih =>
    have hc : c ≠ sep := fun hcs => h (hcs ▸ List.mem_cons_self c rest)
    have hr : sep ∉ rest := fun hm => h (List.mem_cons_of_mem c hm)
    simp [splitOnChar, ih hr, hc]

theorem splitOnChar_append_sep (sep : Char) (xs ys : List Char) (h : sep ∉ xs) :
    splitOnChar sep (xs ++ sep :: ys) = xs :: splitOnChar sep ys := by
  induction xs with
  | nil =>
    simp only [List.nil_append, splitOnChar]
    rcases hy : splitOnChar sep ys with _ | ⟨h0, t⟩
    · exact absurd hy (splitOnChar_ne_nil sep ys)
    · simp
  | cons c rest ih =>
    have hc : c ≠ sep := fun hcs => h (hcs ▸ List.mem_cons_self c rest)
    have hr : sep ∉ rest := fun hm => h (List.mem_cons_of_mem c hm)
    simp only [List.cons_append, splitOnChar]
    rw [show List.append rest (sep :: ys) = rest ++ sep :: ys from rfl, ih hr]
    simp [hc]

theorem trimSuffixL_append (l : List Char) (c : Char) :
    trimSuffixL (l ++ [c]) [c] = l := by
  unfold trimSuffixL hasSuffixL
  have h1 : hasPrefixL (l ++ [c]).reverse [c].reverse = true := by
    have h2 : (l ++ [c]).reverse = [c].reverse ++ l.reverse := by simp
    rw [h2]
    exact hasPrefixL_append_self _ _
  rw [if_pos h1]
  simp [List.take_left]

theorem trimSuffixL_of_not_mem (l : List Char) (c : Char) (h : c ∉ l) :
    trimSuffixL l [c] = l := by
  unfold trimSuffixL hasSuffixL
  have hf : hasPrefixL l.reverse [c] = false := by
    cases hrev : l.reverse with
    | nil => rfl
    | cons x xs =>
      have hx : x ∈ l := by
        have hm : x ∈ l.reverse := hrev ▸ List.mem_cons_self x xs
        simpa using hm
      have hxc : x ≠ c := fun he => h (he ▸ hx)
      simp [hasPrefixL, hxc]
  simp [hf]

/-- Value of a digit list, most significant first (all characters assumed
to be decimal digits). -/
def digitsToNat (l : List Char) : Nat :=
  l.foldl (fun a c => a * 10 + (c.toNat - 48)) 0

/-- Decidable all-digits check. -/
def allDigits (l : List Char) : Bool := l.all (fun c => c.isDigit)

/-- Parses a nonempty all-digit list; none otherwise. -/
def digitsVal (l : List Char) : Option Nat :=
  if l ≠ [] ∧ allDigits l = true then some (digitsToNat l) else none

/-- Strips one leading sign character; true means negative. -/
def stripSign (l : List Char) : Bool × List Char :=
  match l with
  | [] => (false, [])
  | c :: r =>
    if c = '-' then (true, r)
    else if c = '+' then (false, r)
    else (false, c :: r)

/-- Go strconv.ParseInt(s, 10, 64): optional sign, nonempty decimal
digits, result within the signed 64-bit range; none models a non-nil
error. -/
def parseInt64 (s : String) : Option Int :=
  match stripSign s.data with
  | (neg, l) =>
    match digitsVal l with
    | none => none
    | some n =>
      if neg then (if n ≤ 2 ^ 63 then some (-(n : Int)) else none)
      else (if n ≤ 2 ^ 63 - 1 then some ((n : Int)) else none)

/-- Largest finite float64, as an exact rational. -/
def maxFloat64Q : ℚ := mkRat (Int.ofNat ((2 ^ 53 - 1) * 2 ^ 971)) 1

/-- Splits a character list at the first exponent marker (e or E);
the marker itself is dropped. -/
def breakAtExp : List Char → List Char × Option (List Char)
  | [] => ([], none)
  | c :: r =>
    if c = 'e' ∨ c = 'E' then ([], some r)
    else
      match breakAtExp r with
      | (a, b) => (c :: a, b)

/-- Decimal mantissa: digits, or digits.digits with at least one digit
overall (Go accepts both a trailing and a leading dot).  The value is
built with core mkRat so that it reduces inside the kernel. -/
def parseMantissa (l : List Char) : Option ℚ :=
  match splitOnChar '.' l with
  | [ip] => (digitsVal ip).map (fun n => mkRat (Int.ofNat n) 1)
  | [ip, fp] =>
    if allDigits ip = true ∧ allDigits fp = true ∧ (ip ≠ [] ∨ fp ≠ []) then
      some (mkRat (Int.ofNat (digitsToNat ip * 10 ^ fp.length + digitsToNat fp))
        (10 ^ fp.length))
    else none
  | _ => none

/-- Signed decimal exponent part after the e/E marker. -/
def parseSignedExp : List Char → Option Int
  | [] => none
  | '+' :: r => (digitsVal r).map (fun n => Int.ofNat n)
  | '-' :: r => (digitsVal r).map (fun n => -(Int.ofNat n))
  | l => (digitsVal l).map (fun n => Int.ofNat n)

/-- Multiplies a rational by a power of ten with integer exponent,
through core Rat.mul and mkRat. -/
def ratTimesPow10 (m : ℚ) (e : Int) : ℚ :=
  match e with
  | Int.ofNat k => mkRat (m.num * Int.ofNat (10 ^ k)) m.den
  | Int.negSucc k => mkRat m.num (m.den * 10 ^ (k + 1))

/-- Magnitude check abs v ≤ w through core Rat.blt. -/
def ratAbsLe (v w : ℚ) : Bool := !(Rat.blt w v) && !(Rat.blt v (Rat.neg w))

/-- Go strconv.ParseFloat(s, 64) on the plain decimal forms: optional
sign, decimal mantissa, optional e/E exponent, rejection of values
beyond the largest float64.  The parsed value is kept as the exact
rational the decimal denotes (binary rounding is not modelled; no claim
depends on it). -/
def parseFloat64 (s : String) : Option ℚ :=
  match stripSign s.data with
  | (neg, l1) =>
    match breakAtExp l1 with
    | (mant, expPart) =>
      match parseMantissa mant with
      | none => none
      | some m =>
        match expPart with
        | none =>
          let v := if neg then Rat.neg m else m
          if ratAbsLe v maxFloat64Q = true then some v else none
        | some ep =>
          match parseSignedExp ep with
          | none => none
          | some e =>
            let v0 := ratTimesPow10 m e
            let v := if neg then Rat.neg v0 else v0
            if ratAbsLe v maxFloat64Q = true then some v else none

theorem digitsVal_all_digits (l : List Char) (n : Nat) (h : digitsVal l = some n) :
    ∀ c ∈ l, c.isDigit = true := by
  unfold digitsVal at h
  split at h
  · rename_i hc
    intro c hm
    exact List.all_eq_true.mp hc.2 c hm
  · exact absurd h (by simp)

theorem stripSign_dot_mem (l : List Char) (h : '.' ∈ l) :
    '.' ∈ (stripSign l).2 := by
  cases l with
  | nil => simp at h
  | cons c r =>
    unfold stripSign
    by_cases h1 : c = '-'
    · subst h1
      rcases List.mem_cons.mp h with h2 | h2
      · exact absurd h2 (by decide)
      · simpa using h2
    · by_cases h2 : c = '+'
      · subst h2
        rcases List.mem_cons.mp h with h3 | h3
        · exact absurd h3 (by decide)
        · simpa [h1] using h3
      · simpa [h1, h2] using h

theorem parseInt64_of_dot (s : String) (h : '.' ∈ s.data) :
    parseInt64 s = none := by
  unfold parseInt64
  rcases hs : stripSign s.data with ⟨neg, l⟩
  have hl : '.' ∈ l := by
    have hm := stripSign_dot_mem s.data h
    rw [hs] at hm
    exact hm
  cases hd : digitsVal l with
  | none => simp [hd]
  | some n =>
    have hdig := digitsVal_all_digits l n hd '.' hl
    exact absurd hdig (by decide)

/-- Error catalog from src/unnamed/part_001 errorForMessage: maps a NUT
error code to the descriptive message of the error the Go code builds
with errors.New; the default branch yields the generic message. -/
def errorForMessage (message : String) : String :=
  if message = "ACCESS-DENIED" then "The client’s host and/or authentication details (username, password) are not sufficient to execute the requested command"
  else if message = "UNKNOWN-UPS" then "The UPS specified in the request is not known to upsd. This usually means that it didn’t match anything in ups.conf"
  else if message = "VAR-NOT-SUPPORTED" then "The specified UPS doesn’t support the variable in the request. This is also sent for unrecognized variables which are in a space which is handled by upsd, such as server.*"
  else if message = "CMD-NOT-SUPPORTED" then "The specified UPS doesn’t support the instant command in the request"
  else if message = "INVALID-ARGUMENT" then "The client sent an argument to a command which is not recognized or is otherwise invalid in this context. This is typically caused by sending a valid command like GET with an invalid subcommand"
  else if message = "INSTCMD-FAILED" then "upsd failed to deliver the instant command request to the driver. No further information is available to the client. This typically indicates a dead or broken driver"
  else if message = "SET-FAILED" then "upsd failed to deliver the set request to the driver. This is just like INSTCMD-FAILED above"
  else if message = "READONLY" then "The requested variable in a SET command is not writable"
  else if message = "TOO-LONG" then "The requested value in a SET command is too long"
  else if message = "FEATURE-NOT-SUPPORTED" then "This instance of upsd does not support the requested feature. This is only used for TLS/SSL mode (STARTTLS) at the moment"
  else if message = "FEATURE-NOT-CONFIGURED" then "This instance of upsd hasn’t been configured properly to allow the requested feature to operate. This is also limited to STARTTLS for now"
  else if message = "ALREADY-SSL-MODE" then "TLS/SSL mode is already enabled on this connection, so upsd can’t start it again"
  else if message = "DRIVER-NOT-CONNECTED" then "upsd can’t perform the requested command, since the driver for that UPS is not connected. This usually means that the driver is not running, or if it is, the ups.conf is misconfigured"
  else if message = "DATA-STALE" then "upsd is connected to the driver for the UPS, but that driver isn’t providing regular updates or has specifically marked the data as stale. upsd refuses to provide variables on stale units to avoid false readings. This generally means that the driver is running, but it has lost communications with the hardware. Check the physical connection to the equipment"
  else if message = "ALREADY-LOGGED-IN" then "The client already sent LOGIN for a UPS and can’t do it again. There is presently a limit of one LOGIN record per connection"
  else if message = "INVALID-PASSWORD" then "The client sent an invalid PASSWORD - perhaps an empty one"
  else if message = "ALREADY-SET-PASSWORD" then "The client already set a PASSWORD and can’t set another. This also should never happen with normal NUT clients"
  else if message = "INVALID-USERNAME" then "The client sent an invalid USERNAME"
  else if message = "ALREADY-SET-USERNAME" then "The client has already set a USERNAME, and can’t set another. This should never happen with normal NUT clients"
  else if message = "USERNAME-REQUIRED" then "The requested command requires a username for authentication, but the client hasn’t set one"
  else if message = "PASSWORD-REQUIRED" then "The requested command requires a passname for authentication, but the client hasn’t set one"
  else if message = "UNKNOWN-COMMAND" then "upsd doesn’t recognize the requested command"
  else if message = "INVALID-VALUE" then "The value specified in the request is not valid. This usually applies to a SET of an ENUM type which is using a value which is not in the list of allowed values"
  else "Unknown error code"

/-- The 23 error codes of the errorForMessage switch, in source order. -/
def knownErrorCodes : List String :=
  ["ACCESS-DENIED", "UNKNOWN-UPS", "VAR-NOT-SUPPORTED", "CMD-NOT-SUPPORTED",
   "INVALID-ARGUMENT", "INSTCMD-FAILED", "SET-FAILED", "READONLY", "TOO-LONG",
   "FEATURE-NOT-SUPPORTED", "FEATURE-NOT-CONFIGURED", "ALREADY-SSL-MODE",
   "DRIVER-NOT-CONNECTED", "DATA-STALE", "ALREADY-LOGGED-IN", "INVALID-PASSWORD",
   "ALREADY-SET-PASSWORD", "INVALID-USERNAME", "ALREADY-SET-USERNAME",
   "USERNAME-REQUIRED", "PASSWORD-REQUIRED", "UNKNOWN-COMMAND", "INVALID-VALUE"]

theorem errorForMessage_not_known (code : String) (h : code ∉ knownErrorCodes) :
    errorForMessage code = "Unknown error code" := by
  unfold errorForMessage
  simp only [knownErrorCodes, List.mem_cons, List.not_mem_nil, or_false, not_or] at h
  obtain ⟨h1, h2, h3, h4, h5, h6, h7, h8, h9, h10, h11, h12, h13, h14, h15, h16,
    h17, h18, h19, h20, h21, h22, h23⟩ := h
  simp only [h1, h2, h3, h4, h5, h6, h7, h8, h9, h10, h11, h12, h13, h14, h15,
    h16, h17, h18, h19, h20, h21, h22, h23, if_false]

/-- Outcome of running a piece of Go code: a normal return, a runtime
panic (out-of-range slice or index), or fuel exhaustion, used to
exhibit loops that never return. -/
inductive GoOutcome (α : Type) where
  | ok : α → GoOutcome α
  | panic : GoOutcome α
  | diverge : GoOutcome α
deriving DecidableEq

/-- Model of bufio Reader.ReadString over a finite stream: returns the
data up to and including the first newline, the remaining stream, and
an EOF flag that is set when the stream ends before a newline (the
partial data is still returned, as ReadString does). -/
def readChunk : List Char → List Char × List Char × Bool
  | [] => ([], [], true)
  | c :: rest =>
    if c = '\n' then ([c], rest, false)
    else
      match readChunk rest with
      | (a, b, e) => (c :: a, b, e)

/-- Error text of the nut.go ReadResponse failure branch at a clean
end-of-stream (fmt.Errorf applied to io.EOF). -/
def eofErrorMessage : String := "error reading response: EOF"

/-- nut.go ReadResponse (src/nut.go lines 53-73): reads newline
delimited chunks; any read error (in this clean-stream model: EOF)
returns nil and an error; otherwise the chunk minus its trailing
newline is split on newlines and appended to the response, and the
loop breaks when the raw chunk equals endLine or the response is
single-line.  The accumulator models the response variable; the third
result component is the unread remainder of the stream. -/
def ReadResponse1 : Nat → List Char → List Char → Bool → List (List Char) →
    GoOutcome (List (List Char) × Option String × List Char)
  | 0, _, _, _, _ => .diverge
  | fuel + 1, input, endLine, multi, acc =>
    match readChunk input with
    | (line, rest, eof) =>
      if eof then .ok ([], some eofErrorMessage, rest)
      else if line.length > 0 then
        let cleanLine := trimSuffixL line ['\n']
        let lines := splitOnChar '\n' cleanLine
        if line = endLine ∨ multi = false then .ok (acc ++ lines, none, rest)
        else ReadResponse1 fuel rest endLine multi (acc ++ lines)
      else ReadResponse1 fuel rest endLine multi acc

/-- part_001 ReadResponse (src/unnamed/part_001 lines 63-85): io.EOF is
not treated as a failure, so a clean end-of-stream falls through; an
empty chunk merely re-enters the loop. -/
def ReadResponse2 : Nat → List Char → List Char → Bool → List (List Char) →
    GoOutcome (List (List Char) × Option String × List Char)
  | 0, _, _, _, _ => .diverge
  | fuel + 1, input, endLine, multi, acc =>
    match readChunk input with
    | (line, rest, _) =>
      if line.length > 0 then
        let cleanLine := trimSuffixL line ['\n']
        let lines := splitOnChar '\n' cleanLine
        if line = endLine ∨ multi = false then .ok (acc ++ lines, none, rest)
        else ReadResponse2 fuel rest endLine multi (acc ++ lines)
      else ReadResponse2 fuel rest endLine multi acc

/-- Terminator selection of SendCommand (both variants; nut.go lines
77-81): endLine starts as "END " plus the newline-terminated command
and becomes "OK\n" when the newline-terminated command has one of six
space-terminated prefixes. -/
def sendEndLine (cmdN : List Char) : List Char :=
  if hasPrefixL cmdN (("USERNAME ")).data || hasPrefixL cmdN (("PASSWORD ")).data ||
     hasPrefixL cmdN (("SET ")).data || hasPrefixL cmdN (("HELP ")).data ||
     hasPrefixL cmdN (("VER ")).data || hasPrefixL cmdN (("NETVER ")).data then
    (("OK\n")).data
  else (("END ")).data ++ cmdN

/-- Multi-line selection of SendCommand: LIST commands only. -/
def sendMulti (cmdN : List Char) : Bool := hasPrefixL cmdN (("LIST ")).data

/-- nut.go SendCommand (src/nut.go lines 76-97): appends a newline to
the command, selects terminator and mode, reads the response, and on a
first line carrying the "ERR " marker discards the response and fails
with the catalog error for the second space-separated token.  On every
error path the returned line list is empty.  The write to the socket
cannot fail in this clean-stream model. -/
def SendCommand1 (cmd : String) (input : List Char) (fuel : Nat) :
    GoOutcome (List (List Char) × Option String × List Char) :=
  let cmdN := cmd.data ++ ['\n']
  match ReadResponse1 fuel input (sendEndLine cmdN) (sendMulti cmdN) [] with
  | .diverge => .diverge
  | .panic => .panic
  | .ok (_, some e, rest) => .ok ([], some e, rest)
  | .ok (resp, none, rest) =>
    match resp with
    | [] => .panic
    | r0 :: _ =>
      if hasPrefixL r0 (("ERR ")).data then
        match splitOnChar ' ' r0 with
        | _ :: tok :: _ => .ok ([], some (errorForMessage (String.mk tok)), rest)
        | _ => .panic
      else .ok (resp, none, rest)

/-- nut.go GetVersion (src/nut.go lines 142-146): indexes element 0 of
the SendCommand result before the error is inspected, and returns that
element together with the error. -/
def GetVersion1 (input : List Char) (fuel : Nat) :
    GoOutcome (String × Option String × List Char) :=
  match SendCommand1 (("VER")) input fuel with
  | .diverge => .diverge
  | .panic => .panic
  | .ok (resp, err, rest) =>
    match resp with
    | [] => .panic
    | r0 :: _ => .ok (String.mk r0, err, rest)

/-- nut.go GetNetworkProtocolVersion (src/nut.go lines 149-153): same
shape as GetVersion with the NETVER command. -/
def GetNetworkProtocolVersion1 (input : List Char) (fuel : Nat) :
    GoOutcome (String × Option String × List Char) :=
  match SendCommand1 (("NETVER")) input fuel with
  | .diverge => .diverge
  | .panic => .panic
  | .ok (resp, err, rest) =>
    match resp with
    | [] => .panic
    | r0 :: _ => .ok (String.mk r0, err, rest)

/-- nut.go Connect (src/nut.go lines 22-38) after a successful dial:
calls GetVersion and GetNetworkProtocolVersion on the same stream,
discarding both results and both errors, and returns the client with a
nil error; panics inside the two calls propagate. -/
def Connect1 (input : List Char) (fuel : Nat) : GoOutcome Unit :=
  match GetVersion1 input fuel with
  | .diverge => .diverge
  | .panic => .panic
  | .ok (_, _, rest) =>
    match GetNetworkProtocolVersion1 rest fuel with
    | .diverge => .diverge
    | .panic => .panic
    | .ok _ => .ok ()

/-- Tagged union for the dynamically typed Variable.Value interface
field: raw string, boolean (enabled/disabled), coerced 64-bit integer,
or coerced float (kept as the exact decimal rational, see the module
comment). -/
inductive GoValue where
  | str : String → GoValue
  | bool : Bool → GoValue
  | int : Int → GoValue
  | float : ℚ → GoValue
deriving DecidableEq

/-- ups.go Variable struct; the Go field Type is spelled Typ here since
Type is a Lean keyword. -/
structure Variable where
  Name : String
  Value : GoValue
  Typ : String
  Description : String
  Writeable : Bool
  MaximumLength : Int
  OriginalType : String
deriving DecidableEq

/-- ups.go Command struct. -/
structure Command where
  Name : String
  Description : String
deriving DecidableEq

/-- Value coercion of GetVariables (src/ups.go lines 133-139 and
152-168) for one variable: returns the final (Value, Type,
OriginalType) triple from the raw quoted value and the declared type.
The Go zero value of the unset OriginalType field is the empty
string. -/
def coerceVariable (raw varType : String) : GoValue × String × String :=
  let v1 : GoValue := if raw = "enabled" then GoValue.bool true else GoValue.str raw
  let v2 : GoValue := if raw = "disabled" then GoValue.bool false else v1
  if varType = "UNKNOWN" ∨ varType = "NUMBER" then
    if goCount raw '.' = 1 then
      match parseFloat64 raw with
      | some converted => (GoValue.float converted, ("FLOAT_64"), varType)
      | none => (v2, varType, (""))
    else
      match parseInt64 raw with
      | some converted => (GoValue.int converted, ("INTEGER"), varType)
      | none => (v2, varType, (""))
  else (v2, varType, (""))

/-- One Variable as GetVariables assembles it, given the raw value and
the results of the description and type sub-fetches. -/
def buildVariable (name raw desc varType : String) (writeable : Bool)
    (maximumLength : Int) : Variable :=
  match coerceVariable raw varType with
  | (v, t, ot) =>
    { Name := name, Value := v, Typ := t, Description := desc,
      Writeable := writeable, MaximumLength := maximumLength, OriginalType := ot }

/-- Go slice expression xs[lo:hi]: none models the slice-bounds panic
when the bounds are invalid. -/
def goSlice {α : Type} (xs : List α) (lo : Nat) (hi : Int) : Option (List α) :=
  if (lo : Int) ≤ hi ∧ hi ≤ (xs.length : Int) then
    some ((xs.take hi.toNat).drop lo)
  else none

/-- The resp[1 : len(resp)-1] slice every LIST accessor takes. -/
def middleSlice {α : Type} (resp : List α) : Option (List α) :=
  goSlice resp 1 ((resp.length : Int) - 1)

/-- ups.go GetClients (src/ups.go lines 82-94) after a successful
dispatch: the middle slice of the response with the per-line prefix
trimmed; none models the slice-bounds panic. -/
def GetClients (upsName : String) (resp : List String) : Option (List String) :=
  match middleSlice resp with
  | none => none
  | some mid =>
    some (mid.map (fun line => goTrimPrefix line ((("CLIENT ")) ++ upsName ++ ((" ")))))

/-- Loop body of GetVariables (src/ups.go lines 128-170) over the
middle slice: per line, trim the prefix, split on the quote character,
take the name (token 0, one trailing space removed) and raw value
(token 1, a panic when the line has no quote), fetch description and
type (the descOf and typeOf oracles stand for the per-variable
GetVariableDescription and GetVariableType round trips; an Except
error aborts the whole call as in the source), coerce, and continue.
none models a panic; some (Except.error e) models an error return. -/
def buildVars (upsName : String) (descOf : String → Except String String)
    (typeOf : String → Except String (String × Bool × Int)) :
    List String → Option (Except String (List Variable))
  | [] => some (Except.ok [])
  | line :: restLines =>
    let cleanedLine := goTrimPrefix line ((("VAR ")) ++ upsName ++ ((" ")))
    match goSplit cleanedLine '"' with
    | s0 :: s1 :: _ =>
      let varName := goTrimSuffix s0 ((" "))
      match descOf varName with
      | Except.error e => some (Except.error e)
      | Except.ok desc =>
        match typeOf varName with
        | Except.error e => some (Except.error e)
        | Except.ok (varType, writeable, maximumLength) =>
          match buildVars upsName descOf typeOf restLines with
          | none => none
          | some (Except.error e) => some (Except.error e)
          | some (Except.ok vs) =>
            some (Except.ok (buildVariable varName s1 desc varType writeable maximumLength :: vs))
    | _ => none

/-- ups.go GetVariables (src/ups.go lines 121-173) after a successful
dispatch of LIST VAR: iterates buildVars over the middle slice. -/
def GetVariables (upsName : String) (resp : List String)
    (descOf : String → Except String String)
    (typeOf : String → Except String (String × Bool × Int)) :
    Option (Except String (List Variable)) :=
  match middleSlice resp with
  | none => none
  | some mid => buildVars upsName descOf typeOf mid

/-- Loop body of GetCommands (src/ups.go lines 222-233): per middle
line, trim the prefix, fetch the description (oracle for
GetCommandDescription) and build the Command. -/
def buildCmds (upsName : String) (descOf : String → Except String String) :
    List String → Option (Except String (List Command))
  | [] => some (Except.ok [])
  | line :: restLines =>
    let cmdName := goTrimPrefix line ((("CMD ")) ++ upsName ++ ((" ")))
    match descOf cmdName with
    | Except.error e => some (Except.error e)
    | Except.ok d =>
      match buildCmds upsName descOf restLines with
      | none => none
      | some (Except.error e) => some (Except.error e)
      | some (Except.ok cs) =>
        some (Except.ok ({ Name := cmdName, Description := d } :: cs))

/-- ups.go GetCommands (src/ups.go lines 215-236) after a successful
dispatch of LIST CMD. -/
def GetCommands (upsName : String) (resp : List String)
    (descOf : String → Except String String) :
    Option (Except String (List Command)) :=
  match middleSlice resp with
  | none => none
  | some mid => buildCmds upsName descOf mid

/-- ups.go GetVariableType (src/ups.go lines 188-212) applied to the
first line of a successful GET TYPE response: trims the TYPE prefix,
splits on spaces; a leading RW token makes the variable writeable and
the second token (a panic when absent) the type; a type with the
"STRING:" prefix is split at colons, the type truncated to the first
segment and the second segment passed to Atoi (a failing Atoi returns
maximum length -1 together with the error); without RW the first token
is the type and the maximum length stays 0. -/
def GetVariableType (upsName variableName resp0 : String) :
    Option (String × Bool × Int × Option String) :=
  let trimmedLine := goTrimPrefix resp0
    ((("TYPE ")) ++ upsName ++ ((" ")) ++ variableName ++ ((" ")))
  match goSplit trimmedLine ' ' with
  | [] => none
  | s0 :: restTokens =>
    if s0 = "RW" then
      match restTokens with
      | [] => none
      | varType0 :: _ =>
        if goHasPrefix varType0 (("STRING:")) then
          match goSplit varType0 ':' with
          | t0 :: t1 :: _ =>
            match parseInt64 t1 with
            | none => some (t0, true, -1, some (("invalid syntax")))
            | some n => some (t0, true, n, none)
          | _ => none
        else some (varType0, true, 0, none)
    else some (s0, false, 0, none)

/-- ups.go ForceShutdown (src/ups.go lines 282-291): sends FSD for the
device over the given stream; a dispatcher error returns false with
that error; otherwise true exactly when the first response line is
"OK FSD-SET". -/
def ForceShutdown (upsName : String) (input : List Char) (fuel : Nat) :
    GoOutcome (Bool × Option String) :=
  match SendCommand1 ((("FSD ")) ++ upsName) input fuel with
  | .diverge => .diverge
  | .panic => .panic
  | .ok (_, some e, _) => .ok (false, some e)
  | .ok (resp, none, _) =>
    match resp with
    | [] => .panic
    | r0 :: _ => .ok (r0 = (("OK FSD-SET")).data, none)

theorem readChunk_shape (input : List Char) :
    ((readChunk input).2.2 = false →
      ∃ c, (readChunk input).1 = c ++ ['\n'] ∧ '\n' ∉ c) ∧
    ((readChunk input).2.2 = true →
      '\n' ∉ (readChunk input).1 ∧ (readChunk input).2.1 = []) := by
  induction input with
  | nil =>
    refine ⟨fun hf => ?_, fun _ => by simp [readChunk]⟩
    simp [readChunk] at hf
  | cons c r ih =>
    by_cases hc : c = '\n'
    · subst hc
      constructor
      · intro _
        exact ⟨[], by simp [readChunk], by simp⟩
      · intro ht
        rw [show (readChunk ('\n' :: r)).2.2 = false from by simp [readChunk]] at ht
        cases ht
    · rcases hr : readChunk r with ⟨a, b, e⟩
      have hred : readChunk (c :: r) = (c :: a, b, e) := by
        simp [readChunk, hc, hr]
      rw [hred]
      rw [hr] at ih
      simp only at ih
      obtain ⟨hf, ht⟩ := ih
      constructor
      · intro he
        obtain ⟨c2, hc2, hn2⟩ := hf he
        refine ⟨c :: c2, by simp [hc2], ?_⟩
        intro hm
        rcases List.mem_cons.mp hm with hm | hm
        · exact hc hm.symm
        · exact hn2 hm
      · intro he
        obtain ⟨hn2, hb⟩ := ht he
        refine ⟨?_, hb⟩
        intro hm
        rcases List.mem_cons.mp hm with hm | hm
        · exact hc hm.symm
        · exact hn2 hm

theorem cleanLine_no_nl (input : List Char) :
    '\n' ∉ trimSuffixL (readChunk input).1 ['\n'] := by
  rcases hrc : readChunk input with ⟨line, rest, eof⟩
  obtain ⟨hf, ht⟩ := readChunk_shape input
  rw [hrc] at hf ht
  simp only at hf ht ⊢
  cases eof with
  | false =>
    obtain ⟨c, hc, hn⟩ := hf rfl
    rw [hc, trimSuffixL_append]
    exact hn
  | true =>
    obtain ⟨hn, -⟩ := ht rfl
    rw [trimSuffixL_of_not_mem line _ hn]
    exact hn

theorem ReadResponse1_multi (fuel : Nat) :
    ∀ input acc endLine resp rest,
      ReadResponse1 fuel input endLine true acc = .ok (resp, none, rest) →
      ∃ mid, resp = acc ++ mid ∧ mid ≠ [] ∧
        resp.getLast? = some (trimSuffixL endLine ['\n']) := by
  induction fuel with
  | zero =>
    intro input acc endLine resp rest h
    simp [ReadResponse1] at h
  | succ n ih =>
    intro input acc endLine resp rest h
    rw [ReadResponse1] at h
    rcases hrc : readChunk input with ⟨line, rest2, eof⟩
    rw [hrc] at h
    obtain ⟨hf, ht⟩ := readChunk_shape input
    rw [hrc] at hf ht
    simp only at hf ht
    cases eof with
    | true =>
      dsimp only at h
      simp at h
    | false =>
      dsimp only at h
      rw [if_neg (show ¬(false = true) by simp)] at h
      obtain ⟨c, hc, hn⟩ := hf rfl
      have hlen : line.length > 0 := by simp [hc]
      rw [if_pos hlen] at h
      by_cases hline : line = endLine
      · rw [if_pos (show line = endLine ∨ true = false from Or.inl hline)] at h
        simp only [GoOutcome.ok.injEq, Prod.mk.injEq] at h
        have hresp : resp = acc ++ splitOnChar '\n' (trimSuffixL line ['\n']) := by
          tauto
        have hclean : trimSuffixL line ['\n'] = c := by rw [hc, trimSuffixL_append]
        have hsplit : splitOnChar '\n' (trimSuffixL line ['\n']) = [trimSuffixL line ['\n']] :=
          splitOnChar_of_not_mem _ _ (by rw [hclean]; exact hn)
        refine ⟨[trimSuffixL line ['\n']], by rw [hresp, hsplit], by simp, ?_⟩
        rw [hresp, hsplit, ← hline]
        simp
      · rw [if_neg (show ¬(line = endLine ∨ true = false) from fun hor =>
          hor.elim hline (fun hx => by simp at hx))] at h
        obtain ⟨mid2, hr2, hne2, hlast2⟩ := ih rest2 _ endLine resp rest h
        refine ⟨splitOnChar '\n' (trimSuffixL line ['\n']) ++ mid2, ?_, by simp [hne2], hlast2⟩
        rw [hr2, List.append_assoc]

theorem ReadResponse2_multi (fuel : Nat) :
    ∀ input acc endLine resp rest,
      ReadResponse2 fuel input endLine true acc = .ok (resp, none, rest) →
      ∃ mid, resp = acc ++ mid ∧ mid ≠ [] ∧
        resp.getLast? = some (trimSuffixL endLine ['\n']) := by
  induction fuel with
  | zero =>
    intro input acc endLine resp rest h
    simp [ReadResponse2] at h
  | succ n ih =>
    intro input acc endLine resp rest h
    rw [ReadResponse2] at h
    rcases hrc : readChunk input with ⟨line, rest2, eof⟩
    rw [hrc] at h
    dsimp only at h
    have hno : '\n' ∉ trimSuffixL line ['\n'] := by
      have hx := cleanLine_no_nl input
      rw [hrc] at hx
      exact hx
    by_cases hlen : line.length > 0
    · rw [if_pos hlen] at h
      by_cases hline : line = endLine
      · rw [if_pos (show line = endLine ∨ true = false from Or.inl hline)] at h
        simp only [GoOutcome.ok.injEq, Prod.mk.injEq] at h
        have hresp : resp = acc ++ splitOnChar '\n' (trimSuffixL line ['\n']) := by
          tauto
        have hsplit : splitOnChar '\n' (trimSuffixL line ['\n']) = [trimSuffixL line ['\n']] :=
          splitOnChar_of_not_mem _ _ hno
        refine ⟨[trimSuffixL line ['\n']], by rw [hresp, hsplit], by simp, ?_⟩
        rw [hresp, hsplit, ← hline]
        simp
      · rw [if_neg (show ¬(line = endLine ∨ true = false) from fun hor =>
          hor.elim hline (fun hx => by simp at hx))] at h
        obtain ⟨mid2, hr2, hne2, hlast2⟩ := ih rest2 _ endLine resp rest h
        refine ⟨splitOnChar '\n' (trimSuffixL line ['\n']) ++ mid2, ?_, by simp [hne2], hlast2⟩
        rw [hr2, List.append_assoc]
    · rw [if_neg hlen] at h
      exact ih rest2 acc endLine resp rest h

theorem ReadResponse1_single (fuel : Nat) (input endLine : List Char)
    (resp : List (List Char)) (rest : List Char)
    (h : ReadResponse1 fuel input endLine false [] = .ok (resp, none, rest)) :
    resp = [trimSuffixL (readChunk input).1 ['\n']] ∧ rest = (readChunk input).2.1 := by
  cases fuel with
  | zero => simp [ReadResponse1] at h
  | succ n =>
    rw [ReadResponse1] at h
    rcases hrc : readChunk input with ⟨line, rest2, eof⟩
    rw [hrc] at h
    obtain ⟨hf, ht⟩ := readChunk_shape input
    rw [hrc] at hf ht
    simp only at hf ht
    cases eof with
    | true =>
      dsimp only at h
      simp at h
    | false =>
      dsimp only at h
      rw [if_neg (show ¬(false = true) by simp)] at h
      obtain ⟨c, hc, hn⟩ := hf rfl
      have hlen : line.length > 0 := by simp [hc]
      rw [if_pos hlen, if_pos (show line = endLine ∨ false = false from Or.inr rfl)] at h
      simp only [GoOutcome.ok.injEq, Prod.mk.injEq, List.nil_append] at h
      have hclean : trimSuffixL line ['\n'] = c := by rw [hc, trimSuffixL_append]
      have hsplit : splitOnChar '\n' (trimSuffixL line ['\n']) = [trimSuffixL line ['\n']] :=
        splitOnChar_of_not_mem _ _ (by rw [hclean]; exact hn)
      rw [hsplit] at h
      exact ⟨h.1.symm, h.2.2.symm⟩

theorem ReadResponse2_nil (fuel : Nat) :
    ∀ endLine multi acc, ReadResponse2 fuel [] endLine multi acc = .diverge := by
  induction fuel with
  | zero => intro endLine multi acc; rfl
  | succ n ih =>
    intro endLine multi acc
    rw [ReadResponse2]
    dsimp only [readChunk]
    rw [if_neg (show ¬(([] : List Char).length > 0) by simp)]
    exact ih endLine multi acc

theorem SendCommand1_err_empty (cmd : String) (input : List Char) (fuel : Nat)
    (resp : List (List Char)) (e : String) (rest : List Char)
    (h : SendCommand1 cmd input fuel = .ok (resp, some e, rest)) : resp = [] := by
  unfold SendCommand1 at h
  dsimp only at h
  cases hr : ReadResponse1 fuel input (sendEndLine (cmd.data ++ ['\n']))
      (sendMulti (cmd.data ++ ['\n'])) [] with
  | diverge => rw [hr] at h; cases h
  | panic => rw [hr] at h; cases h
  | ok val =>
    rw [hr] at h
    rcases val with ⟨r, err, rest2⟩
    cases err with
    | some e2 =>
      dsimp only at h
      simp only [GoOutcome.ok.injEq, Prod.mk.injEq] at h
      tauto
    | none =>
      dsimp only at h
      cases r with
      | nil => cases h
      | cons r0 t =>
        dsimp only at h
        by_cases herr : hasPrefixL r0 (("ERR ")).data = true
        · rw [if_pos herr] at h
          rcases hsp : splitOnChar ' ' r0 with _ | ⟨t0, rest3⟩
          · exact absurd hsp (splitOnChar_ne_nil ' ' r0)
          · rw [hsp] at h
            cases rest3 with
            | nil => cases h
            | cons t1 rest4 =>
              simp only [GoOutcome.ok.injEq, Prod.mk.injEq] at h
              tauto
        · rw [if_neg herr] at h
          simp at h

theorem SendCommand1_on_err (cmd : String) (input : List Char) (fuel : Nat)
    (code : List Char) (t : List (List Char)) (rest : List Char)
    (hr : ReadResponse1 fuel input (sendEndLine (cmd.data ++ ['\n']))
      (sendMulti (cmd.data ++ ['\n'])) [] = .ok (((("ERR ")).data ++ code) :: t, none, rest))
    (hcode : ' ' ∉ code) :
    SendCommand1 cmd input fuel = .ok ([], some (errorForMessage (String.mk code)), rest) := by
  unfold SendCommand1
  dsimp only
  rw [hr]
  dsimp only
  rw [if_pos (hasPrefixL_append_self (("ERR ")).data code)]
  have hdecomp : (("ERR ")).data ++ code = (("ERR")).data ++ ' ' :: code := rfl
  rw [hdecomp, splitOnChar_append_sep ' ' (("ERR")).data code (by decide),
    splitOnChar_of_not_mem ' ' code hcode]

/-- C1: for every variable whose declared wire type is UNKNOWN or NUMBER
and whose raw value is not an enabled/disabled literal, the per-variable
construction of GetVariables coerces the value as follows: exactly one
decimal point and a successful 64-bit float parse give the parsed float,
the FLOAT_64 tag and the declared type recorded as OriginalType; zero
decimal points and a successful 64-bit integer parse give the parsed
integer, the INTEGER tag and OriginalType likewise; on any parse failure
(including two or more dots, where the integer parse always fails) the
value stays the raw string and the declared type is unchanged, with
OriginalType left at its empty zero value. -/
theorem c1_getVariables_numeric_coercion (name raw desc varType : String)
    (writeable : Bool) (maximumLength : Int)
    (hvt : varType = ("UNKNOWN") ∨ varType = ("NUMBER"))
    (hen : raw ≠ ("enabled")) (hdis : raw ≠ ("disabled")) :
    (∀ q, goCount raw '.' = 1 → parseFloat64 raw = some q →
      buildVariable name raw desc varType writeable maximumLength =
        { Name := name, Value := GoValue.float q, Typ := ("FLOAT_64"),
          Description := desc, Writeable := writeable,
          MaximumLength := maximumLength, OriginalType := varType }) ∧
    (∀ n, goCount raw '.' = 0 → parseInt64 raw = some n →
      buildVariable name raw desc varType writeable maximumLength =
        { Name := name, Value := GoValue.int n, Typ := ("INTEGER"),
          Description := desc, Writeable := writeable,
          MaximumLength := maximumLength, OriginalType := varType }) ∧
    (goCount raw '.' = 1 → parseFloat64 raw = none →
      buildVariable name raw desc varType writeable maximumLength =
        { Name := name, Value := GoValue.str raw, Typ := varType,
          Description := desc, Writeable := writeable,
          MaximumLength := maximumLength, OriginalType := ("") }) ∧
    (goCount raw '.' ≠ 1 → parseInt64 raw = none →
      buildVariable name raw desc varType writeable maximumLength =
        { Name := name, Value := GoValue.str raw, Typ := varType,
          Description := desc, Writeable := writeable,
          MaximumLength := maximumLength, OriginalType := ("") }) ∧
    (2 ≤ goCount raw '.' →
      buildVariable name raw desc varType writeable maximumLength =
        { Name := name, Value := GoValue.str raw, Typ := varType,
          Description := desc, Writeable := writeable,
          MaximumLength := maximumLength, OriginalType := ("") }) := by
  refine ⟨?_, ?_, ?_, ?_, ?_⟩
  · intro q hc hp
    unfold buildVariable coerceVariable
    dsimp only
    rw [if_neg hen, if_neg hdis, if_pos hvt, if_pos hc, hp]
  · intro n hc hp
    unfold buildVariable coerceVariable
    dsimp only
    rw [if_neg hen, if_neg hdis, if_pos hvt,
      if_neg (show ¬(goCount raw '.' = 1) from by rw [hc]; simp), hp]
  · intro hc hp
    unfold buildVariable coerceVariable
    dsimp only
    rw [if_neg hen, if_neg hdis, if_pos hvt, if_pos hc, hp]
  · intro hc hp
    unfold buildVariable coerceVariable
    dsimp only
    rw [if_neg hen, if_neg hdis, if_pos hvt, if_neg hc, hp]
  · intro h2
    have hdot : '.' ∈ raw.data := by
      have hpos : 0 < raw.data.count '.' := lt_of_lt_of_le (by norm_num) h2
      exact List.count_pos_iff.mp hpos
    have hp := parseInt64_of_dot raw hdot
    have hne : goCount raw '.' ≠ 1 := by omega
    unfold buildVariable coerceVariable
    dsimp only
    rw [if_neg hen, if_neg hdis, if_pos hvt, if_neg hne, hp]

/-- Witness for C1 at the spec's own example: raw value 1.50, declared
type NUMBER, coerced to the float 1.5 (the exact rational 3/2), tag
FLOAT_64, original type NUMBER. -/
theorem c1_getVariables_numeric_coercion_witness :
    buildVariable ("battery.charge") ("1.50") ("d") ("NUMBER") false 0 =
      { Name := ("battery.charge"), Value := GoValue.float (mkRat 3 2),
        Typ := ("FLOAT_64"), Description := ("d"), Writeable := false,
        MaximumLength := 0, OriginalType := ("NUMBER") } :=
  (c1_getVariables_numeric_coercion ("battery.charge") ("1.50") ("d") ("NUMBER")
    false 0 (Or.inr rfl) (by decide) (by decide)).1 (mkRat 3 2) (by decide) (by decide)

/-- C2: a raw value of exactly "enabled" yields the boolean true and
"disabled" the boolean false, whatever the declared wire type, and the
boolean survives the numeric-coercion step even for NUMBER or UNKNOWN,
because the integer parse of the literal fails and leaves the already
booleanised value in place. -/
theorem c2_enabled_disabled_bool (name desc varType : String)
    (writeable : Bool) (maximumLength : Int) :
    (buildVariable name ("enabled") desc varType writeable maximumLength).Value =
      GoValue.bool true ∧
    (buildVariable name ("disabled") desc varType writeable maximumLength).Value =
      GoValue.bool false := by
  constructor
  · unfold buildVariable coerceVariable
    dsimp only
    have h1 : ¬(("enabled" : String) = ("disabled")) := by decide
    have h3 : ¬(goCount ("enabled") '.' = 1) := by decide
    have h4 : parseInt64 ("enabled") = none := by decide
    rw [if_neg h1, if_pos (rfl : ("enabled" : String) = ("enabled"))]
    by_cases hvt : varType = ("UNKNOWN") ∨ varType = ("NUMBER")
    · rw [if_pos hvt, if_neg h3, h4]
    · rw [if_neg hvt]
  · unfold buildVariable coerceVariable
    dsimp only
    have h3 : ¬(goCount ("disabled") '.' = 1) := by decide
    have h4 : parseInt64 ("disabled") = none := by decide
    rw [if_pos (rfl : ("disabled" : String) = ("disabled"))]
    by_cases hvt : varType = ("UNKNOWN") ∨ varType = ("NUMBER")
    · rw [if_pos hvt, if_neg h3, h4]
    · rw [if_neg hvt]

/-- C3: a first response line carrying the "ERR " marker makes
SendCommand fail with the catalog error for the second space-separated
token while returning no response lines; ACCESS-DENIED carries its own
non-empty descriptive message, the 23 known messages are pairwise
distinct and non-empty and differ from the generic fallback, and every
code outside the fixed set maps to the generic fallback message. -/
theorem c3_sendCommand_error_catalog :
    (∀ (cmd : String) (input : List Char) (fuel : Nat) (code : List Char)
      (t : List (List Char)) (rest : List Char),
      ReadResponse1 fuel input (sendEndLine (cmd.data ++ ['\n']))
        (sendMulti (cmd.data ++ ['\n'])) [] =
        .ok (((("ERR ")).data ++ code) :: t, none, rest) →
      ' ' ∉ code →
      SendCommand1 cmd input fuel =
        .ok ([], some (errorForMessage (String.mk code)), rest)) ∧
    errorForMessage (("ACCESS-DENIED")) =
      ("The client’s host and/or authentication details (username, password) are not sufficient to execute the requested command") ∧
    (knownErrorCodes.map errorForMessage).Nodup ∧
    (∀ c ∈ knownErrorCodes, errorForMessage c ≠ ("") ∧
      errorForMessage c ≠ ("Unknown error code")) ∧
    (∀ code, code ∉ knownErrorCodes →
      errorForMessage code = ("Unknown error code")) ∧
    ("Unknown error code" : String) ≠ ("") ∧
    ("Unknown error code" : String) ∉ knownErrorCodes.map errorForMessage := by
  refine ⟨?_, by decide, by decide, by decide, ?_, by decide, by decide⟩
  · intro cmd input fuel code t rest hr hcode
    exact SendCommand1_on_err cmd input fuel code t rest hr hcode
  · intro code hcode
    exact errorForMessage_not_known code hcode

/-- Witness for C3: a single-line command answered with
ERR ACCESS-DENIED fails with the ACCESS-DENIED catalog message and an
empty line list, and an unknown code falls back to the generic
message. -/
theorem c3_sendCommand_error_catalog_witness :
    (SendCommand1 ("GET VAR a b") ((("ERR ACCESS-DENIED\n")).data) 2 =
      .ok ([], some (errorForMessage (String.mk (("ACCESS-DENIED")).data)), [])) ∧
    errorForMessage (("NO-SUCH-CODE")) = ("Unknown error code") :=
  ⟨c3_sendCommand_error_catalog.1 ("GET VAR a b") ((("ERR ACCESS-DENIED\n")).data) 2
      ((("ACCESS-DENIED")).data) [] [] (by decide) (by decide),
    c3_sendCommand_error_catalog.2.2.2.2.1 ("NO-SUCH-CODE") (by decide)⟩

/-- C4 (code slip): in multi-line mode a clean end-of-stream before the
terminator does not produce the malformed-response ProtocolError the
spec requires.  The part_001 ReadResponse loops forever: on the
truncated stream "UPS a\n" with terminator "END LIST UPS\n" the fueled
interpreter is still running for every fuel bound, because io.EOF is not
treated as a failure and the empty chunk re-enters the loop.  The
nut.go variant returns the generic read error used for every read
failure instead of a distinct protocol error. -/
theorem c4_truncated_stream_no_protocol_error :
    (∀ fuel, ReadResponse2 fuel ((("UPS a\n")).data) ((("END LIST UPS\n")).data) true [] =
      .diverge) ∧
    ReadResponse1 2 ((("UPS a\n")).data) ((("END LIST UPS\n")).data) true [] =
      .ok ([], some eofErrorMessage, []) := by
  constructor
  · intro fuel
    cases fuel with
    | zero => rfl
    | succ n =>
      have hstep : ReadResponse2 (n + 1) ((("UPS a\n")).data)
          ((("END LIST UPS\n")).data) true [] =
          ReadResponse2 n [] ((("END LIST UPS\n")).data) true [(("UPS a")).data] := rfl
      rw [hstep]
      exact ReadResponse2_nil n _ _ _
  · decide

/-- Counterexample to C5 as stated: the version command VER, exactly as
GetVersion issues it, does not select the bare OK terminator, because
the prefix tests carry a trailing space ("VER ") that "VER\n" fails;
the default END terminator is kept.  The same holds for the bare HELP
and NETVER commands. -/
theorem c5_counterexample :
    sendEndLine ((("VER")).data ++ ['\n']) = (("END VER\n")).data ∧
    sendEndLine ((("VER")).data ++ ['\n']) ≠ (("OK\n")).data ∧
    sendEndLine ((("HELP")).data ++ ['\n']) ≠ (("OK\n")).data ∧
    sendEndLine ((("NETVER")).data ++ ['\n']) ≠ (("OK\n")).data := by decide

/-- C5 amended: the OK terminator is selected exactly when the command
begins with one of the six space-terminated prefixes USERNAME, PASSWORD,
SET, HELP, VER, NETVER (so the argument-less HELP, VER and NETVER fall
into the default class); multi-line mode is selected exactly for
commands beginning with "LIST ", whose terminator is the echoed
"END " plus the newline-terminated command; and every command read in
single-line mode returns exactly the first line of the stream, so the
selected terminator is irrelevant for non-LIST commands. -/
theorem c5_terminator_mode_selection :
    (∀ cmd : String,
      (sendEndLine (cmd.data ++ ['\n']) = (("OK\n")).data ↔
        (hasPrefixL cmd.data (("USERNAME ")).data = true ∨
         hasPrefixL cmd.data (("PASSWORD ")).data = true ∨
         hasPrefixL cmd.data (("SET ")).data = true ∨
         hasPrefixL cmd.data (("HELP ")).data = true ∨
         hasPrefixL cmd.data (("VER ")).data = true ∨
         hasPrefixL cmd.data (("NETVER ")).data = true))) ∧
    (∀ cmd : String,
      sendMulti (cmd.data ++ ['\n']) = hasPrefixL cmd.data (("LIST ")).data) ∧
    (∀ cmd : String, hasPrefixL cmd.data (("LIST ")).data = true →
      sendEndLine (cmd.data ++ ['\n']) = (("END ")).data ++ cmd.data ++ ['\n']) ∧
    (∀ (fuel : Nat) (input endLine : List Char) (resp : List (List Char))
      (rest : List Char),
      ReadResponse1 fuel input endLine false [] = .ok (resp, none, rest) →
      resp = [trimSuffixL (readChunk input).1 ['\n']]) := by
  refine ⟨?_, ?_, ?_, ?_⟩
  · intro cmd
    unfold sendEndLine
    rw [hasPrefixL_snoc cmd.data (("USERNAME ")).data '\n' (by decide),
      hasPrefixL_snoc cmd.data (("PASSWORD ")).data '\n' (by decide),
      hasPrefixL_snoc cmd.data (("SET ")).data '\n' (by decide),
      hasPrefixL_snoc cmd.data (("HELP ")).data '\n' (by decide),
      hasPrefixL_snoc cmd.data (("VER ")).data '\n' (by decide),
      hasPrefixL_snoc cmd.data (("NETVER ")).data '\n' (by decide)]
    by_cases h : (hasPrefixL cmd.data (("USERNAME ")).data ||
        hasPrefixL cmd.data (("PASSWORD ")).data ||
        hasPrefixL cmd.data (("SET ")).data ||
        hasPrefixL cmd.data (("HELP ")).data ||
        hasPrefixL cmd.data (("VER ")).data ||
        hasPrefixL cmd.data (("NETVER ")).data) = true
    · rw [if_pos h]
      simp only [Bool.or_eq_true] at h
      exact iff_of_true rfl (by tauto)
    · rw [if_neg h]
      simp only [Bool.or_eq_true] at h
      refine iff_of_false ?_ (by tauto)
      intro hx
      rw [show (("END ")).data = ['E', 'N', 'D', ' '] from rfl,
        show (("OK\n")).data = ['O', 'K', '\n'] from rfl] at hx
      simp at hx
  · intro cmd
    unfold sendMulti
    rw [hasPrefixL_snoc cmd.data (("LIST ")).data '\n' (by decide)]
  · intro cmd hlist
    obtain ⟨z, hz⟩ := (hasPrefixL_iff cmd.data (("LIST ")).data).mp hlist
    unfold sendEndLine
    rw [hz]
    rw [show (("LIST ")).data ++ z ++ ['\n'] = 'L' :: ((("IST ")).data ++ z ++ ['\n'])
      from rfl]
    simp only [hasPrefixL, show (('L' : Char) = 'U') = False from by simp,
      show (('L' : Char) = 'P') = False from by simp,
      show (('L' : Char) = 'S') = False from by simp,
      show (('L' : Char) = 'H') = False from by simp,
      show (('L' : Char) = 'V') = False from by simp,
      show (('L' : Char) = 'N') = False from by simp, if_false, Bool.or_self,
      Bool.false_or]
    rw [if_neg (by simp)]
    simp [List.append_assoc]
  · intro fuel input endLine resp rest h
    exact (ReadResponse1_single fuel input endLine resp rest h).1

/-- Witness for C5 amended: LIST UPS selects multi-line mode with the
echoed END terminator, and a single-line read returns exactly the first
stream line. -/
theorem c5_terminator_mode_selection_witness :
    sendEndLine ((("LIST UPS")).data ++ ['\n']) =
      (("END ")).data ++ (("LIST UPS")).data ++ ['\n'] ∧
    (ReadResponse1 2 ((("1.4.1\nmore\n")).data) ((("OK\n")).data) false [] =
      .ok ([(("1.4.1")).data], none, (("more\n")).data)) ∧
    [(("1.4.1")).data] = [trimSuffixL (readChunk ((("1.4.1\nmore\n")).data)).1 ['\n']] :=
  ⟨c5_terminator_mode_selection.2.2.1 ("LIST UPS") (by decide),
    by decide,
    c5_terminator_mode_selection.2.2.2 2 ((("1.4.1\nmore\n")).data) ((("OK\n")).data)
      [(("1.4.1")).data] ((("more\n")).data) (by decide)⟩

/-- Counterexample to C6 as stated: a writeable type with a
colon-delimited numeric suffix that does not begin with "STRING:" is
not truncated at the colon: GET TYPE response "RW ENUM:5" yields the
whole token "ENUM:5" as the type and MaximumLength 0, not type "ENUM"
with MaximumLength 5, although the token contains exactly one colon. -/
theorem c6_counterexample :
    GetVariableType ("ups") ("va") ("TYPE ups va RW ENUM:5") =
      some (("ENUM:5"), true, 0, none) ∧
    GetVariableType ("ups") ("va") ("TYPE ups va RW ENUM:5") ≠
      some (("ENUM"), true, 5, none) ∧
    goCount ("ENUM:5") ':' = 1 := by decide

/-- C6 amended: on a two-token response whose first token is RW the
variable is writeable and the second token is the type; the type is
split at colons only when it begins with "STRING:", in which case the
type is truncated to "STRING" and the segment after the first colon is
parsed as the maximum length (Atoi failure yields -1 and an error); a
colon-suffixed second token without the "STRING:" prefix is kept whole
with MaximumLength 0; and without the RW marker the first token is the
type, Writeable is false and MaximumLength 0. -/
theorem c6_getVariableType (upsName variableName resp0 : String) :
    (∀ s0 restTokens,
      goSplit (goTrimPrefix resp0 ((("TYPE ")) ++ upsName ++ ((" ")) ++
        variableName ++ ((" ")))) ' ' = s0 :: restTokens →
      s0 ≠ ("RW") →
      GetVariableType upsName variableName resp0 = some (s0, false, 0, none)) ∧
    (∀ t restTokens,
      goSplit (goTrimPrefix resp0 ((("TYPE ")) ++ upsName ++ ((" ")) ++
        variableName ++ ((" ")))) ' ' = ("RW") :: t :: restTokens →
      goHasPrefix t (("STRING:")) = false →
      GetVariableType upsName variableName resp0 = some (t, true, 0, none)) ∧
    (∀ d restTokens,
      goSplit (goTrimPrefix resp0 ((("TYPE ")) ++ upsName ++ ((" ")) ++
        variableName ++ ((" ")))) ' ' =
        ("RW") :: String.mk ((("STRING:")).data ++ d) :: restTokens →
      ':' ∉ d →
      GetVariableType upsName variableName resp0 =
        (match parseInt64 (String.mk d) with
          | some n => some (("STRING"), true, n, none)
          | none => some (("STRING"), true, -1, some (("invalid syntax"))))) := by
  refine ⟨?_, ?_, ?_⟩
  · intro s0 restTokens hsplit hne
    unfold GetVariableType
    dsimp only
    rw [hsplit]
    dsimp only
    rw [if_neg hne]
  · intro t restTokens hsplit hpf
    unfold GetVariableType
    dsimp only
    rw [hsplit]
    dsimp only
    rw [if_pos (rfl : ("RW" : String) = ("RW")),
      if_neg (show ¬(goHasPrefix t (("STRING:")) = true) from by rw [hpf]; simp)]
  · intro d restTokens hsplit hcolon
    unfold GetVariableType
    dsimp only
    rw [hsplit]
    dsimp only
    rw [if_pos (rfl : ("RW" : String) = ("RW"))]
    have hpre : goHasPrefix (String.mk ((("STRING:")).data ++ d)) (("STRING:")) = true := by
      unfold goHasPrefix
      exact hasPrefixL_append_self (("STRING:")).data d
    rw [if_pos hpre]
    unfold goSplit
    rw [show (String.mk ((("STRING:")).data ++ d)).data = (("STRING")).data ++ ':' :: d
      from rfl]
    rw [splitOnChar_append_sep ':' (("STRING")).data d (by decide),
      splitOnChar_of_not_mem ':' d hcolon]
    dsimp only [List.map]
    cases hpi : parseInt64 (String.mk d) <;> rfl

/-- Witness for C6 amended at the spec's examples: RW STRING:20 gives a
writeable STRING with maximum length 20, and the bare ENUM response a
non-writeable ENUM with maximum length 0. -/
theorem c6_getVariableType_witness :
    GetVariableType ("ups") ("va") ("TYPE ups va RW STRING:20") =
      some (("STRING"), true, 20, none) ∧
    GetVariableType ("ups") ("va") ("TYPE ups va ENUM") =
      some (("ENUM"), false, 0, none) := by
  constructor
  · have h := (c6_getVariableType ("ups") ("va") ("TYPE ups va RW STRING:20")).2.2
      ((("20")).data) [] (by decide) (by decide)
    rw [h]
    decide
  · exact (c6_getVariableType ("ups") ("va") ("TYPE ups va ENUM")).1 ("ENUM") []
      (by decide) (by decide)

/-- C7: every successful multi-line ReadResponse call (both variants)
returns the lines accumulated in order on top of the running response,
at least one line, and its final element is the terminator line (as
stored: with the trailing newline removed). -/
theorem c7_multiline_includes_terminator :
    (∀ (fuel : Nat) (input : List Char) (acc : List (List Char))
      (endLine : List Char) (resp : List (List Char)) (rest : List Char),
      ReadResponse1 fuel input endLine true acc = .ok (resp, none, rest) →
      ∃ mid, resp = acc ++ mid ∧ mid ≠ [] ∧
        resp.getLast? = some (trimSuffixL endLine ['\n'])) ∧
    (∀ (fuel : Nat) (input : List Char) (acc : List (List Char))
      (endLine : List Char) (resp : List (List Char)) (rest : List Char),
      ReadResponse2 fuel input endLine true acc = .ok (resp, none, rest) →
      ∃ mid, resp = acc ++ mid ∧ mid ≠ [] ∧
        resp.getLast? = some (trimSuffixL endLine ['\n'])) :=
  ⟨fun fuel => ReadResponse1_multi fuel, fun fuel => ReadResponse2_multi fuel⟩

/-- Witness for C7: a two-line LIST response ends with the (newline
stripped) terminator line. -/
theorem c7_multiline_includes_terminator_witness :
    (ReadResponse1 2 ((("UPS a\nEND LIST UPS\n")).data) ((("END LIST UPS\n")).data)
      true [] = .ok ([(("UPS a")).data, (("END LIST UPS")).data], none, [])) ∧
    ∃ mid, [(("UPS a")).data, (("END LIST UPS")).data] = [] ++ mid ∧ mid ≠ [] ∧
      ([(("UPS a")).data, (("END LIST UPS")).data] : List (List Char)).getLast? =
        some (trimSuffixL ((("END LIST UPS\n")).data) ['\n']) :=
  ⟨by decide,
    c7_multiline_includes_terminator.1 2 ((("UPS a\nEND LIST UPS\n")).data) []
      ((("END LIST UPS\n")).data) [(("UPS a")).data, (("END LIST UPS")).data] []
      (by decide)⟩

/-- C8: ForceShutdown returns true exactly when the first line of the
successful FSD dispatch is "OK FSD-SET"; any other first line, a plain
OK included, returns false with a nil error. -/
theorem c8_forceShutdown (upsName : String) (input : List Char) (fuel : Nat)
    (r0 : List Char) (t : List (List Char)) (rest : List Char)
    (h : SendCommand1 ((("FSD ")) ++ upsName) input fuel = .ok (r0 :: t, none, rest)) :
    (ForceShutdown upsName input fuel = .ok (true, none) ↔ r0 = (("OK FSD-SET")).data) ∧
    (r0 ≠ (("OK FSD-SET")).data → ForceShutdown upsName input fuel = .ok (false, none)) := by
  unfold ForceShutdown
  rw [h]
  dsimp only
  constructor
  · constructor
    · intro hx
      simp only [GoOutcome.ok.injEq, Prod.mk.injEq] at hx
      exact of_decide_eq_true hx.1
    · intro hx
      subst hx
      simp
  · intro hne
    rw [decide_eq_false hne]

/-- Witness for C8: a plain OK answer gives false with a nil error and
the exact OK FSD-SET answer gives true. -/
theorem c8_forceShutdown_witness :
    (SendCommand1 ((("FSD ")) ++ ("myups")) ((("OK\n")).data) 2 =
      .ok ([(("OK")).data], none, [])) ∧
    ForceShutdown ("myups") ((("OK\n")).data) 2 = .ok (false, none) ∧
    ForceShutdown ("myups") ((("OK FSD-SET\n")).data) 2 = .ok (true, none) :=
  ⟨by decide,
    (c8_forceShutdown ("myups") ((("OK\n")).data) 2 (("OK")).data [] []
      (by decide)).2 (by decide),
    (c8_forceShutdown ("myups") ((("OK FSD-SET\n")).data) 2 (("OK FSD-SET")).data [] []
      (by decide)).1.mpr rfl⟩

/-- C9: nut.go SendCommand returns an empty line list alongside every
non-nil error; GetVersion and GetNetworkProtocolVersion index element 0
of that list before checking the error, so every failed VER or NETVER
exchange is an out-of-range index (a runtime panic) instead of an error
return; Connect invokes both calls, discards their error results and
propagates the panic, as on the empty (immediately closed) stream. -/
theorem c9_version_panic_on_error :
    (∀ (cmd : String) (input : List Char) (fuel : Nat) (resp : List (List Char))
      (e : String) (rest : List Char),
      SendCommand1 cmd input fuel = .ok (resp, some e, rest) → resp = []) ∧
    (∀ (input : List Char) (fuel : Nat) (e : String) (rest : List Char),
      SendCommand1 ("VER") input fuel = .ok ([], some e, rest) →
      GetVersion1 input fuel = .panic) ∧
    (∀ (input : List Char) (fuel : Nat) (e : String) (rest : List Char),
      SendCommand1 ("NETVER") input fuel = .ok ([], some e, rest) →
      GetNetworkProtocolVersion1 input fuel = .panic) ∧
    (∀ (input : List Char) (fuel : Nat),
      GetVersion1 input fuel = .panic → Connect1 input fuel = .panic) ∧
    (∀ fuel, Connect1 [] (fuel + 1) = .panic) := by
  refine ⟨?_, ?_, ?_, ?_, ?_⟩
  · intro cmd input fuel resp e rest h
    exact SendCommand1_err_empty cmd input fuel resp e rest h
  · intro input fuel e rest h
    unfold GetVersion1
    rw [h]
  · intro input fuel e rest h
    unfold GetNetworkProtocolVersion1
    rw [h]
  · intro input fuel h
    unfold Connect1
    rw [h]
  · intro fuel
    rfl

/-- Witness for C9: on an immediately closed stream the VER exchange
fails, SendCommand returns the empty list with the read error, and
GetVersion and Connect panic. -/
theorem c9_version_panic_on_error_witness :
    (SendCommand1 ("VER") [] 1 = .ok ([], some eofErrorMessage, [])) ∧
    GetVersion1 [] 1 = .panic ∧
    Connect1 [] 1 = .panic :=
  ⟨by decide,
    c9_version_panic_on_error.2.1 [] 1 eofErrorMessage [] (by decide),
    c9_version_panic_on_error.2.2.2.1 [] 1
      (c9_version_panic_on_error.2.1 [] 1 eofErrorMessage [] (by decide))⟩

theorem middleSlice_of_two_le {α : Type} (resp : List α) (h : 2 ≤ resp.length) :
    middleSlice resp = some ((resp.take (resp.length - 1)).drop 1) := by
  unfold middleSlice goSlice
  rw [if_pos (show ((1 : Nat) : Int) ≤ (resp.length : Int) - 1 ∧
    (resp.length : Int) - 1 ≤ (resp.length : Int) from by omega)]
  have ht : (((resp.length : Int) - 1)).toNat = resp.length - 1 := by omega
  rw [ht]

theorem middleSlice_of_short {α : Type} (resp : List α) (h : resp.length < 2) :
    middleSlice resp = none := by
  unfold middleSlice goSlice
  rw [if_neg]
  intro hc
  omega

theorem take_drop_eq_dropLast {α : Type} (resp : List α) (h : 2 ≤ resp.length) :
    (resp.take (resp.length - 1)).drop 1 = (resp.drop 1).dropLast := by
  rw [List.dropLast_eq_take, List.length_drop, List.take_drop]
  have harith : 1 + (resp.length - 1 - 1) = resp.length - 1 := by omega
  rw [harith]

/-- C10: every LIST-parsing accessor builds its entities from exactly
the lines strictly between the first and the last line of the successful
dispatch response (resp[1 : len-1], equal to dropping the first line
and the last line); this requires at least two lines, and a successful
response with fewer than two lines makes the slice bounds invalid, a
runtime panic rather than a returned error. -/
theorem c10_list_accessors_middle_slice (upsName : String)
    (descOf : String → Except String String)
    (typeOf : String → Except String (String × Bool × Int)) :
    (∀ resp : List String, resp.length < 2 →
      GetClients upsName resp = none ∧
      GetVariables upsName resp descOf typeOf = none ∧
      GetCommands upsName resp descOf = none) ∧
    (∀ resp : List String, 2 ≤ resp.length →
      GetClients upsName resp = some (((resp.drop 1).dropLast).map
        (fun line => goTrimPrefix line ((("CLIENT ")) ++ upsName ++ ((" "))))) ∧
      GetVariables upsName resp descOf typeOf =
        buildVars upsName descOf typeOf ((resp.drop 1).dropLast) ∧
      GetCommands upsName resp descOf =
        buildCmds upsName descOf ((resp.drop 1).dropLast)) := by
  constructor
  · intro resp h
    refine ⟨?_, ?_, ?_⟩ <;>
      simp only [GetClients, GetVariables, GetCommands, middleSlice_of_short resp h]
  · intro resp h
    have hm : middleSlice resp = some ((resp.drop 1).dropLast) := by
      rw [middleSlice_of_two_le resp h, take_drop_eq_dropLast resp h]
    refine ⟨?_, ?_, ?_⟩ <;>
      simp only [GetClients, GetVariables, GetCommands, hm]

/-- Witness for C10: a LIST CLIENT response reduced to its own END line
panics in all three accessors, and a three-line response is parsed from
exactly its middle line. -/
theorem c10_list_accessors_middle_slice_witness :
    (GetClients ("u") [("END LIST CLIENT u")] = none ∧
      GetVariables ("u") [("END LIST CLIENT u")] (fun _ => Except.ok (("d")))
        (fun _ => Except.ok ((("STRING"), true, 0))) = none ∧
      GetCommands ("u") [("END LIST CLIENT u")] (fun _ => Except.ok (("d"))) = none) ∧
    GetClients ("u") [("BEGIN LIST CLIENT u"), ("CLIENT u 1.2.3.4"), ("END LIST CLIENT u")] =
      some [("1.2.3.4")] :=
  ⟨(c10_list_accessors_middle_slice ("u") (fun _ => Except.ok (("d")))
      (fun _ => Except.ok ((("STRING"), true, 0)))).1 [("END LIST CLIENT u")]
      (by decide),
    by decide⟩
